import Mathlib

/-!
Shallow embedding of the disk-oriented B+Tree index of this repository
(src/index/b_plus_tree.cpp, src/page/b_plus_tree_leaf_page.cpp,
src/page/b_plus_tree_internal_page.cpp, src/include/concurrency/transaction.h).

Keys are modelled as integers; the key comparator follows the contract of the
spec (cmp(a,b) = sign(a-b), a totally ordered comparator returning
negative/zero/positive).  Record identifiers and page ids are modelled as
integers, with INVALID_PAGE_ID = -1.  The buffer pool is modelled as a map
from page id to node payload; a failed FetchPage (nullptr dereference in the
source) and a descent that does not reach a leaf are modelled with Option and
an explicit fuel argument.  Loops of the source are translated one-to-one into
structurally recursive helpers whose last argument counts the remaining loop
iterations.
-/

namespace DbModel

/-- The INVALID_PAGE_ID sentinel of the source (value -1). -/
def INVALID_PAGE_ID : Int := -1

/-- Modelled from the spec: PAGE_SIZE is 4096 (section 6, page layout); the
constant itself lives in a header outside src.  No verified claim depends on
its exact value. -/
def PAGE_SIZE : Nat := 4096

/-- Modelled from the spec: size of the common node header (section 6 lists
page_type, lsn, size, max_size, parent_page_id, page_id, 4 bytes each).  The
constant lives in a header outside src; no verified claim depends on it. -/
def HEADER_SIZE : Nat := 24

/-- Modelled from the spec: byte width of a key for the 8-byte GenericKey
instantiation (section 3, typical widths 4..64 bytes). -/
def KEY_BYTES : Nat := 8

/-- Modelled from the spec: byte width of a RID (record identifier triple). -/
def RID_BYTES : Nat := 8

/-- Modelled from the spec: byte width of a page id (4 bytes, section 6). -/
def PAGE_ID_BYTES : Nat := 4

/-- The key comparator: cmp(a,b) = sign(a-b), as the comparator contract of
the spec states and as GenericComparator implements for integer keys. -/
def cmpK (a b : Int) : Int := if a < b then -1 else if a = b then 0 else 1

/-- Payload of a leaf node page (BPlusTreeLeafPage).  The slot array is a
total map from slot index to a (key, rid) pair; only slots below size are
meaningful, matching the raw in-page array of the source. -/
structure LeafPage where
  size : Nat
  maxSize : Nat
  pageId : Int
  parentPageId : Int
  nextPageId : Int
  arr : Nat → Int × Int

/-- Payload of an internal node page (BPlusTreeInternalPage).  Slot 0 carries
an unused key and the leftmost child; slots 1..size-1 carry (separator key,
child page id). -/
structure InternalPage where
  size : Nat
  maxSize : Nat
  pageId : Int
  parentPageId : Int
  arr : Nat → Int × Int

/-- BPlusTreeLeafPage::GetNextPageId: returns the next_page_id_ field. -/
def LeafPage.GetNextPageId (l : LeafPage) : Int := l.nextPageId

/-- BPlusTreeLeafPage::SetNextPageId: the source assigns the field to itself
(next_page_id_ = next_page_id_), so the argument is ignored and the field is
unchanged. -/
def LeafPage.SetNextPageId (l : LeafPage) (nextPage : Int) : LeafPage :=
  { l with nextPageId := l.nextPageId }

/-- Capacity computed by BPlusTreeLeafPage::Init:
(PAGE_SIZE - HEADER_SIZE) / (sizeof(KeyType) + sizeof(ValueType)). -/
def leafMaxSizeVal : Nat := (PAGE_SIZE - HEADER_SIZE) / (KEY_BYTES + RID_BYTES)

/-- Capacity computed by BPlusTreeInternalPage::Init:
(PAGE_SIZE - HEADER_SIZE) / (sizeof(KeyType) + sizeof(ValueType)), where the
value of an internal slot is a page id. -/
def internalMaxSizeVal : Nat :=
  (PAGE_SIZE - HEADER_SIZE) / (KEY_BYTES + PAGE_ID_BYTES)

/-- BPlusTreeLeafPage::Init: sets the page type tag (carried by the NodePage
sum below), size := 0, page id, parent id, then calls SetNextPageId with
INVALID_PAGE_ID (which, being a self-assignment, changes nothing), then sets
max size. -/
def LeafPage.Init (l : LeafPage) (pageId parentId : Int) : LeafPage :=
  let l1 := { l with size := 0, pageId := pageId, parentPageId := parentId }
  let l2 := l1.SetNextPageId INVALID_PAGE_ID
  { l2 with maxSize := leafMaxSizeVal }

/-- Loop of BPlusTreeLeafPage::KeyIndex: for i in [0, size), return i at the
first slot with comparator(array[i].first, key) >= 0; after the loop return
-1.  The last argument counts the remaining iterations (size - i). -/
def LeafPage.keyIndexAux (l : LeafPage) (key : Int) (i : Nat) : Nat → Int
  | 0 => -1
  | r + 1 =>
    if cmpK (l.arr i).1 key ≥ 0 then (i : Int)
    else l.keyIndexAux key (i + 1) r

/-- BPlusTreeLeafPage::KeyIndex. -/
def LeafPage.KeyIndex (l : LeafPage) (key : Int) : Int :=
  l.keyIndexAux key 0 l.size

/-- Loop of BPlusTreeLeafPage::Lookup: scan slots [0, size) for an exact
comparator match (cmp == 0); found value is returned through the out
parameter, modelled as the Option payload. -/
def LeafPage.lookupAux (l : LeafPage) (key : Int) (i : Nat) : Nat → Option Int
  | 0 => none
  | r + 1 =>
    if cmpK key (l.arr i).1 = 0 then some (l.arr i).2
    else l.lookupAux key (i + 1) r

/-- BPlusTreeLeafPage::Lookup. -/
def LeafPage.Lookup (l : LeafPage) (key : Int) : Option Int :=
  l.lookupAux key 0 l.size

/-- Scan loop of BPlusTreeLeafPage::Insert.  The source tests
comparator(array[i].first, key) == key twice in a row: the first hit returns
GetSize() without inserting (modelled as none); the second, identical test
would break with insert position i (kept for fidelity, it is unreachable);
otherwise the loop advances.  After the loop the position is i = size. -/
def LeafPage.insertPosAux (l : LeafPage) (key : Int) (i : Nat) : Nat → Option Nat
  | 0 => some i
  | r + 1 =>
    if cmpK (l.arr i).1 key = key then none
    else if cmpK (l.arr i).1 key = key then some i
    else l.insertPosAux key (i + 1) r

/-- Shift step of BPlusTreeLeafPage::Insert: slots j in (i, size] receive the
old slot j-1, slot i receives the new item, other slots are untouched. -/
def shiftInsertAt (a : Nat → Int × Int) (i : Nat) (item : Int × Int)
    (size : Nat) : Nat → Int × Int :=
  fun j =>
    if j < i then a j
    else if j = i then item
    else if j ≤ size then a (j - 1)
    else a j

/-- BPlusTreeLeafPage::Insert: on an early return the page is unchanged,
otherwise the item is written at the found position and size grows by one. -/
def LeafPage.Insert (l : LeafPage) (key value : Int) : LeafPage :=
  match l.insertPosAux key 0 l.size with
  | none => l
  | some i =>
    { l with arr := shiftInsertAt l.arr i (key, value) l.size,
             size := l.size + 1 }

/-- BPlusTreeLeafPage::CopyHalfFrom: half := size - size / 2; slots
[size - half, size) of the items are copied to slots [0, half) of the
recipient; the recipient size becomes half. -/
def LeafPage.CopyHalfFrom (recipient : LeafPage) (items : Nat → Int × Int)
    (size : Nat) : LeafPage :=
  let half := size - size / 2
  { recipient with
    size := half,
    arr := fun j => if j < half then items (size - half + j) else recipient.arr j }

/-- BPlusTreeLeafPage::MoveHalfTo: recipient.CopyHalfFrom(array, GetSize());
then the source size becomes GetSize() / 2.  Returns (source, recipient)
after the move. -/
def LeafPage.MoveHalfTo (l recipient : LeafPage) : LeafPage × LeafPage :=
  let r := recipient.CopyHalfFrom l.arr l.size
  ({ l with size := l.size / 2 }, r)

/-- BPlusTreeInternalPage::KeyAt. -/
def InternalPage.KeyAt (n : InternalPage) (i : Nat) : Int := (n.arr i).1

/-- BPlusTreeInternalPage::ValueAt. -/
def InternalPage.ValueAt (n : InternalPage) (i : Nat) : Int := (n.arr i).2

/-- While loop of BPlusTreeInternalPage::Lookup: starting at i = 1, advance
while i < size and comparator(key, KeyAt(i)) > 0.  The last argument counts
the remaining iterations. -/
def InternalPage.lookupWhileAux (n : InternalPage) (key : Int) (i : Nat) :
    Nat → Nat
  | 0 => i
  | r + 1 =>
    if i < n.size ∧ cmpK key (n.KeyAt i) > 0 then
      n.lookupWhileAux key (i + 1) r
    else i

/-- Tail of BPlusTreeInternalPage::Lookup after the while loop: if i reached
size return ValueAt(size - 1); if key < KeyAt(i) return ValueAt(i - 1); else
(key equals KeyAt(i)) return ValueAt(i). -/
def InternalPage.lookupDispatch (n : InternalPage) (key : Int) (i : Nat) : Int :=
  if i = n.size then n.ValueAt (n.size - 1)
  else if cmpK key (n.KeyAt i) < 0 then n.ValueAt (i - 1)
  else n.ValueAt i

/-- BPlusTreeInternalPage::Lookup. -/
def InternalPage.Lookup (n : InternalPage) (key : Int) : Int :=
  n.lookupDispatch key (n.lookupWhileAux key 1 n.size)

/-- Routing rule as the spec words it (sections 4.1 and claim C8): find the
smallest i in [1, size) with key < key_i and take the child at slot i - 1;
if no such i exists take the child at slot size - 1.  This definition follows
the words of the spec and is compared with InternalPage.Lookup, which is
translated from the source. -/
def routeSpecAux (n : InternalPage) (key : Int) (i : Nat) : Nat → Int
  | 0 => n.ValueAt (n.size - 1)
  | r + 1 =>
    if i < n.size ∧ cmpK key (n.KeyAt i) < 0 then n.ValueAt (i - 1)
    else routeSpecAux n key (i + 1) r

/-- Spec-side routing rule, scanning slots [1, size). -/
def routeSpec (n : InternalPage) (key : Int) : Int :=
  routeSpecAux n key 1 n.size

/-- BPlusTreeInternalPage::PopulateNewRoot: writes array[0].second :=
old_value and array[1] := (new_key, new_value).  The source never calls
SetSize, so the size field is left unchanged. -/
def InternalPage.PopulateNewRoot (n : InternalPage)
    (oldValue newKey newValue : Int) : InternalPage :=
  { n with arr := fun j =>
      if j = 0 then ((n.arr 0).1, oldValue)
      else if j = 1 then (newKey, newValue)
      else n.arr j }

/-- Loop of BPlusTreeInternalPage::ValueIndex: scan slots [0, size) for the
slot whose value equals the argument; return -1 after the loop. -/
def InternalPage.valueIndexAux (n : InternalPage) (v : Int) (i : Nat) :
    Nat → Int
  | 0 => -1
  | r + 1 => if (n.arr i).2 = v then (i : Int) else n.valueIndexAux v (i + 1) r

/-- BPlusTreeInternalPage::ValueIndex. -/
def InternalPage.ValueIndex (n : InternalPage) (v : Int) : Int :=
  n.valueIndexAux v 0 n.size

/-- BPlusTreeInternalPage::InsertNodeAfter: index := ValueIndex(old_value);
slots above index are shifted one to the right, slot index + 1 receives the
new pair, size grows by one. -/
def InternalPage.InsertNodeAfter (n : InternalPage)
    (oldValue newKey newValue : Int) : InternalPage :=
  let idx : Int := n.ValueIndex oldValue
  { n with
    size := n.size + 1,
    arr := fun j =>
      if (j : Int) < idx + 1 then n.arr j
      else if (j : Int) = idx + 1 then (newKey, newValue)
      else if j ≤ n.size then n.arr (j - 1)
      else n.arr j }

/-- BPlusTreeInternalPage::CopyHalfFrom: half := size - (size + 1) / 2; the
upper half of the items is copied to the front of the recipient.  The
commented-out child-reparenting of the source is absent from the live code
and therefore from this model. -/
def InternalPage.CopyHalfFrom (recipient : InternalPage)
    (items : Nat → Int × Int) (size : Nat) : InternalPage :=
  let half := size - (size + 1) / 2
  { recipient with
    size := half,
    arr := fun j => if j < half then items (size - half + j) else recipient.arr j }

/-- BPlusTreeInternalPage::MoveHalfTo: recipient.CopyHalfFrom(array,
GetSize()); then the source size becomes (GetSize() + 1) / 2.  Returns
(source, recipient) after the move. -/
def InternalPage.MoveHalfTo (n recipient : InternalPage) :
    InternalPage × InternalPage :=
  let r := recipient.CopyHalfFrom n.arr n.size
  ({ n with size := (n.size + 1) / 2 }, r)

/-- A node page as the tree sees it after the page-type tag: either a leaf
payload or an internal payload. -/
inductive NodePage where
  | leaf : LeafPage → NodePage
  | internal : InternalPage → NodePage

/-- Page id of a node (BPlusTreePage::GetPageId). -/
def NodePage.pid : NodePage → Int
  | .leaf l => l.pageId
  | .internal n => n.pageId

/-- Parent page id of a node (BPlusTreePage::GetParentPageId). -/
def NodePage.parentId : NodePage → Int
  | .leaf l => l.parentPageId
  | .internal n => n.parentPageId

/-- State of one B+Tree instance together with its buffer pool and the header
page record for its index name.  headerRecord models the (index name -> root
page id) record of the header page (spec section 6); none means the record is
absent. -/
structure TreeState where
  pages : Int → Option NodePage
  nextFreePageId : Int
  root_page_id : Int
  headerRecord : Option Int

/-- Write-back of a pinned page mutation into the buffer pool map. -/
def writePage (pages : Int → Option NodePage) (pid : Int) (nd : NodePage) :
    Int → Option NodePage :=
  fun j => if j = pid then some nd else pages j

/-- BufferPoolManager::NewPage, modelled from the spec (section 6): returns a
freshly allocated page id; the payload of a fresh page is unspecified and is
modelled as zero bytes. -/
def TreeState.newPage (st : TreeState) : Int × TreeState :=
  (st.nextFreePageId, { st with nextFreePageId := st.nextFreePageId + 1 })

/-- A fresh leaf payload as delivered by NewPage before any Init, modelled as
zero bytes. -/
def freshLeaf : LeafPage :=
  { size := 0, maxSize := 0, pageId := 0, parentPageId := 0, nextPageId := 0,
    arr := fun _ => (0, 0) }

/-- A fresh internal payload as delivered by NewPage before any Init,
modelled as zero bytes. -/
def freshInternal : InternalPage :=
  { size := 0, maxSize := 0, pageId := 0, parentPageId := 0,
    arr := fun _ => (0, 0) }

namespace BPlusTree

/-- BPlusTree::UpdateRootPageId: with insert_record, InsertRecord(index name,
root page id) in the header page; otherwise UpdateRecord.  The header page
itself is outside src; its contract is modelled from the spec (section 6):
InsertRecord appends the record, UpdateRecord updates it in place when it
exists. -/
def updateRootPageId (st : TreeState) (insertRecord : Bool) : TreeState :=
  if insertRecord then { st with headerRecord := some st.root_page_id }
  else
    match st.headerRecord with
    | some _ => { st with headerRecord := some st.root_page_id }
    | none => st

/-- Inner for loop of BPlusTree::GetValueHelper on an internal page: for i in
[1, size), at the first slot with comparator(key, KeyAt(i)) < 0 descend into
ValueAt(i - 1); after the loop descend into ValueAt(size - 1). -/
def getValueChildAux (key : Int) (n : InternalPage) (i : Nat) : Nat → Int
  | 0 => n.ValueAt (n.size - 1)
  | r + 1 =>
    if cmpK key (n.KeyAt i) < 0 then n.ValueAt (i - 1)
    else getValueChildAux key n (i + 1) r

/-- Child chosen by one internal step of BPlusTree::GetValueHelper. -/
def getValueChild (key : Int) (n : InternalPage) : Int :=
  getValueChildAux key n 1 (n.size - 1)

/-- BPlusTree::GetValueHelper: fetch the page; on a leaf, Lookup and push the
value into the result vector on success; on an internal page recurse into the
routed child.  The Bool is the return value, the list the values appended to
the result vector.  Fuel bounds the recursion depth; none models a failed
fetch or an unbounded descent. -/
def getValueHelper (st : TreeState) (key : Int) : Nat → Int → Option (Bool × List Int)
  | 0, _ => none
  | fuel + 1, pageId =>
    match st.pages pageId with
    | some (NodePage.leaf currLeaf) =>
      match currLeaf.Lookup key with
      | some v => some (true, [v])
      | none => some (false, [])
    | some (NodePage.internal currInternal) =>
      getValueHelper st key fuel (getValueChild key currInternal)
    | none => none

/-- BPlusTree::GetValue: delegates to GetValueHelper at the root page id. -/
def getValue (fuel : Nat) (st : TreeState) (key : Int) : Option (Bool × List Int) :=
  getValueHelper st key fuel st.root_page_id

/-- BPlusTree::StartNewTree: NewPage assigns the fresh id into root_page_id_,
the new leaf is Init-ed with parent INVALID_PAGE_ID, and the pair is inserted
through BPlusTreeLeafPage::Insert.  No header page update happens here. -/
def startNewTree (st : TreeState) (key value : Int) : TreeState :=
  let p := st.newPage
  let newId := p.1
  let st1 := p.2
  let root0 := freshLeaf.Init newId INVALID_PAGE_ID
  let root1 := root0.Insert key value
  { st1 with root_page_id := newId,
             pages := writePage st1.pages newId (NodePage.leaf root1) }

/-- Inner for loop of the descent in BPlusTree::InsertIntoLeaf: for i in
[1, size), when comparator(key, KeyAt(i)) < 0 the loop assigns currId :=
ValueAt(i - 1) and continues with the next i (the continue statement targets
the for loop, not the enclosing while). -/
def insertForAux (key : Int) (n : InternalPage) (curr : Int) (i : Nat) :
    Nat → Int
  | 0 => curr
  | r + 1 =>
    if cmpK key (n.KeyAt i) < 0 then
      insertForAux key n (n.ValueAt (i - 1)) (i + 1) r
    else insertForAux key n curr (i + 1) r

/-- One internal step of the descent in BPlusTree::InsertIntoLeaf: after the
for loop, the unconditional assignment currId := ValueAt(GetSize() - 1)
overwrites whatever the loop stored. -/
def insertDescendChild (key : Int) (n : InternalPage) (curr : Int) : Int :=
  let _c := insertForAux key n curr 1 (n.size - 1)
  n.ValueAt (n.size - 1)

/-- While loop of BPlusTree::InsertIntoLeaf: fetch pages from the root until
a leaf page is reached, stepping through insertDescendChild on internal
pages. -/
def findLeafForInsert (st : TreeState) (key : Int) : Nat → Int → Option Int
  | 0, _ => none
  | fuel + 1, currId =>
    match st.pages currId with
    | some (NodePage.leaf _) => some currId
    | some (NodePage.internal n) =>
      findLeafForInsert st key fuel (insertDescendChild key n currId)
    | none => none

/-- Recursive BPlusTree::InsertIntoParent: fetch the parent of old_node,
InsertNodeAfter the new pair; when the parent overflows, NewPage (without any
Init in the source) and MoveHalfTo; when the split parent is the root page, a
further NewPage assigns a fresh root_page_id_ and the new root (again never
Init-ed) is populated through PopulateNewRoot with the first key and the
first value of the new sibling; otherwise recurse. -/
def insertIntoParent (st : TreeState) (oldNode : NodePage) (key : Int)
    (newNode : NodePage) : Nat → Option TreeState
  | 0 => none
  | fuel + 1 =>
    match st.pages oldNode.parentId with
    | some (NodePage.internal page) =>
      let page1 := page.InsertNodeAfter oldNode.pid key newNode.pid
      let st1 := { st with
        pages := writePage st.pages oldNode.parentId (NodePage.internal page1) }
      if page1.size < page1.maxSize then some st1
      else
        let p := st1.newPage
        let newId := p.1
        let st2 := p.2
        let moved := page1.MoveHalfTo { freshInternal with pageId := newId }
        let page2 := moved.1
        let newPg2 := moved.2
        let st3 := { st2 with
          pages := writePage
            (writePage st2.pages oldNode.parentId (NodePage.internal page2))
            newId (NodePage.internal newPg2) }
        if page2.parentPageId = INVALID_PAGE_ID then
          let q := st3.newPage
          let rootId := q.1
          let st4 := { q.2 with root_page_id := rootId }
          let newRoot :=
            freshInternal.PopulateNewRoot page2.pageId (newPg2.KeyAt 0)
              (newPg2.ValueAt 0)
          some { st4 with
            pages := writePage st4.pages rootId (NodePage.internal newRoot) }
        else
          insertIntoParent st3 (NodePage.internal page2) (newPg2.KeyAt 0)
            (NodePage.internal newPg2) fuel
    | _ => none

/-- BPlusTree::InsertToLeaf: fetch the leaf, BPlusTreeLeafPage::Insert; when
the leaf reaches max size, NewPage, Init the new leaf with the parent of the
old one, MoveHalfTo, and InsertIntoParent with the first key of the new
leaf. -/
def insertToLeaf (fuel : Nat) (st : TreeState) (leafId : Int)
    (key value : Int) : Option TreeState :=
  match st.pages leafId with
  | some (NodePage.leaf page) =>
    let page1 := page.Insert key value
    let st1 := { st with pages := writePage st.pages leafId (NodePage.leaf page1) }
    if page1.size < page1.maxSize then some st1
    else
      let p := st1.newPage
      let newId := p.1
      let st2 := p.2
      let newPg := freshLeaf.Init newId page1.parentPageId
      let moved := page1.MoveHalfTo newPg
      let pageAfter := moved.1
      let newPg2 := moved.2
      let st3 := { st2 with
        pages := writePage
          (writePage st2.pages leafId (NodePage.leaf pageAfter))
          newId (NodePage.leaf newPg2) }
      insertIntoParent st3 (NodePage.leaf pageAfter) (newPg2.arr 0).1
        (NodePage.leaf newPg2) fuel
  | _ => none

/-- BPlusTree::InsertIntoLeaf: descend to a leaf, Lookup the key there; if it
is present return false without touching the tree, otherwise InsertToLeaf and
return true. -/
def insertIntoLeaf (fuel : Nat) (st : TreeState) (key value : Int) :
    Option (Bool × TreeState) :=
  match findLeafForInsert st key fuel st.root_page_id with
  | none => none
  | some currId =>
    match st.pages currId with
    | some (NodePage.leaf curr) =>
      match curr.Lookup key with
      | some _ => some (false, st)
      | none => (insertToLeaf fuel st currId key value).map fun st1 => (true, st1)
    | _ => none

/-- BPlusTree::Insert: on an empty tree StartNewTree and return true;
otherwise call InsertIntoLeaf and return true unconditionally (the source
discards the Bool returned by InsertIntoLeaf). -/
def insert (fuel : Nat) (st : TreeState) (key value : Int) :
    Option (Bool × TreeState) :=
  if st.root_page_id = INVALID_PAGE_ID then some (true, startNewTree st key value)
  else
    match insertIntoLeaf fuel st key value with
    | none => none
    | some pr => some (true, pr.2)

/-- BPlusTree::Remove: the body of the source is empty, so the state is
returned unchanged. -/
def remove (st : TreeState) (key : Int) : TreeState := st

end BPlusTree

/-- The Transaction of src/include/concurrency/transaction.h: thread id,
transaction id, and a shared pointer to the latched-page map.  A null shared
pointer is modelled as none. -/
structure Transaction where
  thread_id : Nat
  txn_id : Int
  page_set : Option (List (Int × Int))

/-- The Transaction constructor: stores the two ids and calls
page_set_.reset(), which leaves the shared pointer null; no map is ever
allocated. -/
def mkTransaction (threadId : Nat) (txnId : Int) : Transaction :=
  { thread_id := threadId, txn_id := txnId, page_set := none }

/-- Transaction::GetPageSet: returns the page_set_ shared pointer. -/
def getPageSet (t : Transaction) : Option (List (Int × Int)) := t.page_set

/-! Concrete states used by the claim theorems. -/

/-- A leaf root holding the single pair (1, 10). -/
def leafOne : LeafPage :=
  { size := 1, maxSize := leafMaxSizeVal, pageId := 1, parentPageId := -1,
    nextPageId := -1, arr := fun j => if j = 0 then (1, 10) else (0, 0) }

/-- A one-leaf tree: root page 1 holds (1, 10); the header record matches the
root. -/
def treeOne : TreeState :=
  { pages := fun j => if j = 1 then some (NodePage.leaf leafOne) else none,
    nextFreePageId := 2, root_page_id := 1, headerRecord := some 1 }

/-- An empty tree whose header record says INVALID_PAGE_ID, consistent with
root_page_id = INVALID_PAGE_ID. -/
def treeEmpty : TreeState :=
  { pages := fun _ => none, nextFreePageId := 1, root_page_id := -1,
    headerRecord := some (-1) }

/-- A leaf of size 3 with slots (1,10), (2,20), (3,30). -/
def exLeafThree : LeafPage :=
  { size := 3, maxSize := leafMaxSizeVal, pageId := 4, parentPageId := -1,
    nextPageId := -1,
    arr := fun j =>
      if j = 0 then (1, 10) else if j = 1 then (2, 20)
      else if j = 2 then (3, 30) else (0, 0) }

/-- An empty leaf used as split recipient. -/
def exLeafEmpty : LeafPage :=
  { size := 0, maxSize := leafMaxSizeVal, pageId := 5, parentPageId := -1,
    nextPageId := -1, arr := fun _ => (0, 0) }

/-- A leaf page whose next_page_id field currently holds 7. -/
def exLeafNextSeven : LeafPage :=
  { size := 1, maxSize := leafMaxSizeVal, pageId := 6, parentPageId := -1,
    nextPageId := 7, arr := fun _ => (0, 0) }

/-- A fresh internal page of size 0, as handed to PopulateNewRoot. -/
def exFreshInternal : InternalPage :=
  { size := 0, maxSize := internalMaxSizeVal, pageId := 8, parentPageId := -1,
    arr := fun _ => (0, 0) }

/-- An internal page of size 3 with separators 5 and 9 and children 10, 20,
30; its keys at slots 1..2 are strictly ascending. -/
def exInternalThree : InternalPage :=
  { size := 3, maxSize := internalMaxSizeVal, pageId := 2, parentPageId := -1,
    arr := fun j =>
      if j = 0 then (0, 10) else if j = 1 then (5, 20)
      else if j = 2 then (9, 30) else (0, 0) }

/-- A leaf of size 2 with ascending keys 3 and 5, for the KeyIndex witness. -/
def exLeafTwo : LeafPage :=
  { size := 2, maxSize := leafMaxSizeVal, pageId := 3, parentPageId := -1,
    nextPageId := -1,
    arr := fun j => if j = 0 then (3, 30) else if j = 1 then (5, 50) else (0, 0) }

/-- A leaf of size 1 holding key 1, for the KeyIndex counterexample. -/
def exLeafSingle : LeafPage :=
  { size := 1, maxSize := leafMaxSizeVal, pageId := 9, parentPageId := -1,
    nextPageId := -1, arr := fun j => if j = 0 then (1, 10) else (0, 0) }

/-! Theorems settling the claims. -/

/-- C1: the claim says Insert of a key already present returns false and
leaves the tree unchanged.  On the one-leaf tree holding key 1, Insert(1, 99)
indeed leaves the state untouched, but it returns true: BPlusTree::Insert
discards the false returned by InsertIntoLeaf and returns true
unconditionally, contradicting its own doc comment. -/
theorem insert_existing_key_returns_true :
    BPlusTree.insert 20 treeOne 1 99 = some (true, treeOne) := rfl

/-- C2: the claim says Remove of a present key followed by GetValue yields
false with nothing appended.  The body of BPlusTree::Remove is empty, so on
the one-leaf tree holding (1, 10), Remove(1) then GetValue(1) still returns
true and appends 10. -/
theorem remove_then_getValue_still_found :
    BPlusTree.getValue 20 (BPlusTree.remove treeOne 1) 1 = some (true, [10]) :=
  rfl

/-- C3: the claim says Insert of a fresh key followed by GetValue yields true
with exactly that value.  Starting from the empty tree, Insert(2, 20) then
Insert(1, 10) then GetValue(1) returns false with nothing appended: the
duplicate test of BPlusTreeLeafPage::Insert compares the comparator result
with the key itself (cmp == key instead of cmp == 0), so inserting key 1
below the existing key 2 hits sign(2 - 1) = 1 = key and is silently
dropped. -/
theorem insert_new_key_then_getValue_misses :
    ((BPlusTree.insert 20 treeEmpty 2 20).bind fun p =>
      (BPlusTree.insert 20 p.2 1 10).bind fun q =>
        BPlusTree.getValue 20 q.2 1) = some (false, []) := rfl

/-- C5: the claim says the header record equals the in-memory root after
every operation and that every root change is followed by UpdateRootPageId.
Inserting into the empty tree (whose header record is INVALID_PAGE_ID = -1)
makes page 1 the new root, but BPlusTree::StartNewTree never calls
UpdateRootPageId, so the header still records -1 while root_page_id is 1. -/
theorem startNewTree_leaves_header_stale :
    (BPlusTree.insert 20 treeEmpty 1 10).map
        (fun p => (p.2.root_page_id, p.2.headerRecord)) = some (1, some (-1)) ∧
      (1 : Int) ≠ -1 := by
  exact ⟨rfl, by decide⟩

/-- C6: the claim says Init sets next_page_id to INVALID_PAGE_ID and that
SetNextPageId(p) stores p.  SetNextPageId is a self-assignment
(next_page_id_ = next_page_id_), so on a leaf whose field holds 7, Init
leaves it 7 (not INVALID_PAGE_ID) and SetNextPageId 5 leaves it 7 (not 5). -/
theorem setNextPageId_noop_init_next_stale :
    (exLeafNextSeven.Init 2 (-1)).GetNextPageId = 7 ∧
      ((exLeafNextSeven.Init 2 (-1)).SetNextPageId 5).GetNextPageId = 7 ∧
      (7 : Int) ≠ -1 ∧ (7 : Int) ≠ 5 := by decide

/-- C7: the claim says PopulateNewRoot leaves slot 0 with the old child,
slot 1 with the new pair, and size 2.  The slots are written as claimed, but
the source never calls SetSize, so on a fresh size-0 page the size stays 0,
not 2. -/
theorem populateNewRoot_size_not_set :
    (exFreshInternal.PopulateNewRoot 1 42 2).ValueAt 0 = 1 ∧
      (exFreshInternal.PopulateNewRoot 1 42 2).KeyAt 1 = 42 ∧
      (exFreshInternal.PopulateNewRoot 1 42 2).ValueAt 1 = 2 ∧
      (exFreshInternal.PopulateNewRoot 1 42 2).size = 0 ∧ (0 : Nat) ≠ 2 := by
  decide

/-- C10: a freshly constructed Transaction has a null latched-page set: the
constructor only resets the shared pointer and never allocates the map, so
GetPageSet returns null (none). -/
theorem new_transaction_page_set_none (threadId : Nat) (txnId : Int) :
    getPageSet (mkTransaction threadId txnId) = none := rfl

/-- C4 counterexample: the claim says the source of MoveHalfTo retains the
upper-rounded half (ceil of s / 2 slots, so 2 of 3) and the recipient gets
the rest (1 slot, the smaller half for odd s).  On a leaf of size 3 the code
leaves the source with 1 slot and gives the recipient 2 slots. -/
theorem leaf_moveHalfTo_claim_cex :
    (exLeafThree.MoveHalfTo exLeafEmpty).1.size ≠ 2 ∧
      (exLeafThree.MoveHalfTo exLeafEmpty).2.size ≠ 1 := by decide

/-- C4 amended: after L.MoveHalfTo(R) on a leaf of size s, the source
retains the lower floor(s / 2) slots, and the recipient holds the upper
s - floor(s / 2) slots starting at its slot 0; for odd s the recipient gets
the larger half. -/
theorem leaf_moveHalfTo_splits_at_floor (l recipient : LeafPage) :
    (l.MoveHalfTo recipient).1.size = l.size / 2 ∧
      (l.MoveHalfTo recipient).2.size = l.size - l.size / 2 ∧
      (∀ j, j < l.size / 2 → (l.MoveHalfTo recipient).1.arr j = l.arr j) ∧
      (∀ j, j < l.size - l.size / 2 →
        (l.MoveHalfTo recipient).2.arr j = l.arr (l.size / 2 + j)) := by
  refine ⟨rfl, rfl, fun j hj => rfl, fun j hj => ?_⟩
  show (if j < l.size - l.size / 2 then
      l.arr (l.size - (l.size - l.size / 2) + j) else _) = l.arr (l.size / 2 + j)
  rw [if_pos hj]
  congr 1
  omega

/-- The comparator is negative exactly when the first key is smaller. -/
theorem cmpK_neg_iff (a b : Int) : cmpK a b < 0 ↔ a < b := by
  unfold cmpK
  split_ifs with h1 h2 <;> omega

/-- The comparator is positive exactly when the first key is larger. -/
theorem cmpK_pos_iff (a b : Int) : 0 < cmpK a b ↔ b < a := by
  unfold cmpK
  split_ifs with h1 h2 <;> omega

/-- The comparator is zero exactly on equal keys. -/
theorem cmpK_zero_iff (a b : Int) : cmpK a b = 0 ↔ a = b := by
  unfold cmpK
  split_ifs with h1 h2
  · exact iff_of_false id (by omega)
  · exact iff_of_true rfl h2
  · exact iff_of_false (by omega) h2

/-- Once the scan start is at or beyond size, the spec-side routing scan
falls through to the child at slot size - 1. -/
theorem routeSpecAux_ge (n : InternalPage) (key : Int) :
    ∀ r i, n.size ≤ i → routeSpecAux n key i r = n.ValueAt (n.size - 1) := by
  intro r
  induction r with
  | zero => intro i h; rfl
  | succ r1 ih =>
    intro i h
    show (if i < n.size ∧ cmpK key (n.KeyAt i) < 0 then n.ValueAt (i - 1)
      else routeSpecAux n key (i + 1) r1) = n.ValueAt (n.size - 1)
    rw [if_neg (fun hc => absurd hc.1 (by omega))]
    exact ih (i + 1) (by omega)

/-- Main loop correspondence for C8: with strictly ascending separators, the
spec-side routing scan from slot i agrees with the while loop of the source
followed by its dispatch, provided every slot before i held a key strictly
below the search key and the fuel covers the remaining slots. -/
theorem route_while_eq (n : InternalPage) (key : Int)
    (hsort : ∀ j, j < n.size → ∀ i, i < j → 0 < i → n.KeyAt i < n.KeyAt j) :
    ∀ r i, 0 < i → i ≤ n.size → n.size ≤ i + r →
      (∀ j, j < i → 0 < j → n.KeyAt j < key) →
      routeSpecAux n key i r = n.lookupDispatch key (n.lookupWhileAux key i r) := by
  intro r
  induction r with
  | zero =>
    intro i hpos hle hfuel hinv
    have hi : i = n.size := by omega
    show n.ValueAt (n.size - 1) = n.lookupDispatch key i
    rw [InternalPage.lookupDispatch, if_pos hi]
  | succ r1 ih =>
    intro i hpos hle hfuel hinv
    have hstep : routeSpecAux n key i (r1 + 1) =
        (if i < n.size ∧ cmpK key (n.KeyAt i) < 0 then n.ValueAt (i - 1)
         else routeSpecAux n key (i + 1) r1) := rfl
    have wstep : n.lookupWhileAux key i (r1 + 1) =
        (if i < n.size ∧ cmpK key (n.KeyAt i) > 0 then
          n.lookupWhileAux key (i + 1) r1 else i) := rfl
    by_cases hi : i < n.size
    · rcases lt_trichotomy key (n.KeyAt i) with hlt | heq | hgt
      · -- key below the separator at i: both sides stop here
        have hc : cmpK key (n.KeyAt i) < 0 := (cmpK_neg_iff key (n.KeyAt i)).2 hlt
        rw [hstep, if_pos ⟨hi, hc⟩, wstep,
          if_neg (fun hw => absurd ((cmpK_pos_iff key (n.KeyAt i)).1 hw.2) (by omega))]
        rw [InternalPage.lookupDispatch, if_neg (by omega), if_pos hc]
      · -- key equals the separator at i: the source stops and dispatches to
        -- ValueAt i; the spec scan skips slot i and stops at slot i + 1 (or
        -- runs out), which also yields ValueAt i
        have hc0 : cmpK key (n.KeyAt i) = 0 := (cmpK_zero_iff key (n.KeyAt i)).2 heq
        rw [hstep, if_neg (fun hw => by omega), wstep,
          if_neg (fun hw => by omega)]
        rw [InternalPage.lookupDispatch, if_neg (by omega), if_neg (by omega)]
        by_cases hi1 : i + 1 < n.size
        · have hkey : key < n.KeyAt (i + 1) := by
            have := hsort (i + 1) hi1 i (by omega) hpos
            omega
          have hc1 : cmpK key (n.KeyAt (i + 1)) < 0 :=
            (cmpK_neg_iff key (n.KeyAt (i + 1))).2 hkey
          obtain ⟨r2, rfl⟩ : ∃ r2, r1 = r2 + 1 := ⟨r1 - 1, by omega⟩
          show (if i + 1 < n.size ∧ cmpK key (n.KeyAt (i + 1)) < 0 then
            n.ValueAt (i + 1 - 1) else routeSpecAux n key (i + 1 + 1) r2) =
              n.ValueAt i
          rw [if_pos ⟨hi1, hc1⟩]
          congr 1
        · rw [routeSpecAux_ge n key r1 (i + 1) (by omega)]
          congr 1
          omega
      · -- key above the separator at i: both loops advance
        have hcp : cmpK key (n.KeyAt i) > 0 := (cmpK_pos_iff key (n.KeyAt i)).2 hgt
        rw [hstep, if_neg (fun hw => by omega), wstep, if_pos ⟨hi, hcp⟩]
        refine ih (i + 1) (by omega) (by omega) (by omega) ?_
        intro j hj hjpos
        rcases Nat.lt_or_ge j i with hji | hji
        · exact hinv j hji hjpos
        · have : j = i := by omega
          subst this
          exact hgt
    · -- the scan start already reached size
      have hi2 : i = n.size := by omega
      rw [hstep, if_neg (fun hw => absurd hw.1 hi), wstep,
        if_neg (fun hw => absurd hw.1 hi)]
      rw [routeSpecAux_ge n key r1 (i + 1) (by omega)]
      rw [InternalPage.lookupDispatch, if_pos hi2]

/-- C8: on a non-empty internal page whose separators at slots 1..size-1 are
strictly ascending, BPlusTreeInternalPage::Lookup returns exactly the child
prescribed by the routing rule of the spec: the child at slot i - 1 for the
smallest i in [1, size) with key < key_i, and the child at slot size - 1 when
no such i exists; in particular a key equal to a separator descends into the
child at that separator's slot. -/
theorem internalLookup_matches_routeSpec (n : InternalPage) (key : Int)
    (hpos : 0 < n.size)
    (hsort : ∀ j, j < n.size → ∀ i, i < j → 0 < i → n.KeyAt i < n.KeyAt j) :
    n.Lookup key = routeSpec n key := by
  unfold InternalPage.Lookup routeSpec
  exact (route_while_eq n key hsort n.size 1 (by omega) hpos (by omega)
    (fun j h1 h2 => by omega)).symm

/-- C8 witness: the hypotheses hold on the concrete internal page with
separators 5 and 9, and looking up key 7 there routes as the spec rule
says. -/
theorem internalLookup_matches_routeSpec_witness :
    (0 < exInternalThree.size ∧
      (∀ j, j < exInternalThree.size → ∀ i, i < j → 0 < i →
        exInternalThree.KeyAt i < exInternalThree.KeyAt j)) ∧
      exInternalThree.Lookup 7 = routeSpec exInternalThree 7 :=
  ⟨⟨by decide, by decide⟩,
    internalLookup_matches_routeSpec exInternalThree 7 (by decide) (by decide)⟩

/-- Scan characterisation of the KeyIndex loop: starting at slot i with
exactly the remaining slots as fuel, the loop either stops at the first slot
t at or after i whose key compares greater or equal, or returns -1 when every
remaining key compares below the search key. -/
theorem keyIndexAux_spec (l : LeafPage) (key : Int) :
    ∀ r i, i + r = l.size →
      ((∃ t, i ≤ t ∧ t < l.size ∧ cmpK (l.arr t).1 key ≥ 0 ∧
          (∀ j, i ≤ j → j < t → cmpK (l.arr j).1 key < 0) ∧
          l.keyIndexAux key i r = (t : Int)) ∨
        ((∀ j, i ≤ j → j < l.size → cmpK (l.arr j).1 key < 0) ∧
          l.keyIndexAux key i r = -1)) := by
  intro r
  induction r with
  | zero =>
    intro i h
    right
    exact ⟨fun j h1 h2 => by omega, rfl⟩
  | succ r1 ih =>
    intro i h
    have hstep : l.keyIndexAux key i (r1 + 1) =
        (if cmpK (l.arr i).1 key ≥ 0 then (i : Int)
         else l.keyIndexAux key (i + 1) r1) := rfl
    by_cases hge : cmpK (l.arr i).1 key ≥ 0
    · left
      refine ⟨i, Nat.le_refl i, by omega, hge, fun j h1 h2 => by omega, ?_⟩
      rw [hstep, if_pos hge]
    · rcases ih (i + 1) (by omega) with ⟨t, h1, h2, h3, h4, h5⟩ | ⟨h1, h2⟩
      · left
        refine ⟨t, by omega, h2, h3, ?_, ?_⟩
        · intro j hj1 hj2
          rcases Nat.eq_or_lt_of_le hj1 with hji | hji
          · subst hji
            omega
          · exact h4 j hji hj2
        · rw [hstep, if_neg hge]
          exact h5
      · right
        refine ⟨?_, ?_⟩
        · intro j hj1 hj2
          rcases Nat.eq_or_lt_of_le hj1 with hji | hji
          · subst hji
            omega
          · exact h1 j hji hj2
        · rw [hstep, if_neg hge]
          exact h2

/-- C9 amended: on a leaf with strictly ascending keys,
BPlusTreeLeafPage::KeyIndex returns the smallest slot index whose key
compares greater or equal to the search key, and returns -1 (not the page
size, as the claim said) when no slot satisfies this. -/
theorem keyIndex_first_ge_or_neg_one (l : LeafPage) (key : Int)
    (hsort : ∀ j, j < l.size → ∀ i, i < j → (l.arr i).1 < (l.arr j).1) :
    (∃ t, t < l.size ∧ cmpK (l.arr t).1 key ≥ 0 ∧
        (∀ j, j < t → cmpK (l.arr j).1 key < 0) ∧ l.KeyIndex key = (t : Int)) ∨
      ((∀ j, j < l.size → cmpK (l.arr j).1 key < 0) ∧ l.KeyIndex key = -1) := by
  have h := keyIndexAux_spec l key l.size 0 (by omega)
  unfold LeafPage.KeyIndex
  rcases h with ⟨t, h1, h2, h3, h4, h5⟩ | ⟨h1, h2⟩
  · exact Or.inl ⟨t, h2, h3, fun j hj => h4 j (Nat.zero_le j) hj, h5⟩
  · exact Or.inr ⟨fun j hj => h1 j (Nat.zero_le j) hj, h2⟩

/-- C9 witness: on the concrete two-slot leaf with keys 3 and 5 (strictly
ascending), the amended description of KeyIndex holds for search key 4. -/
theorem keyIndex_first_ge_or_neg_one_witness :
    (∃ t, t < exLeafTwo.size ∧ cmpK (exLeafTwo.arr t).1 4 ≥ 0 ∧
        (∀ j, j < t → cmpK (exLeafTwo.arr j).1 4 < 0) ∧
        exLeafTwo.KeyIndex 4 = (t : Int)) ∨
      ((∀ j, j < exLeafTwo.size → cmpK (exLeafTwo.arr j).1 4 < 0) ∧
        exLeafTwo.KeyIndex 4 = -1) :=
  keyIndex_first_ge_or_neg_one exLeafTwo 4 (by decide)

/-- C9 counterexample: the claim says KeyIndex returns the page size when no
slot key compares greater or equal.  On the one-slot leaf with key 1 and
search key 2 (no slot qualifies, keys trivially ascending) the code returns
-1, not the size 1. -/
theorem keyIndex_absent_returns_neg_one_cex :
    exLeafSingle.KeyIndex 2 = -1 ∧
      exLeafSingle.KeyIndex 2 ≠ (exLeafSingle.size : Int) := by decide

end DbModel
